import Mathlib

/-!
Verification development for the `neweden` SQLite loader and search index.

The Rust sources embedded here are `src/source/sqlite/mod.rs` (the
`DatabaseBuilder` loader) and `src/search.rs` (the `SearchIndex`).  The crate's
`types` module is not part of the available sources; the definitions taken from
it are either forced by their use sites in the loader (the `System` and
`Connection` struct literals fix the exact field lists) or, where noted,
modelled from the specification (`Universe::new`).

Machine floats (`f32`/`f64` columns: coordinates and security) are modelled as
exact rationals: the loader only stores and compares these values, it performs
no floating-point arithmetic on them.  Database rows are modelled as record
types mirroring the SQL projections, and each fallible row fetch/conversion is
an `Except String` value, mirroring `rusqlite`'s per-row `Result`.
-/

/-- `SystemId`: opaque integer identifier of a system.  The systems query reads
it as `u32`, the jumps query as `i32`; both convert with `.into()`, so the
underlying value is modelled as an integer. -/
structure SystemId where
  val : Int
deriving DecidableEq, Repr

/-- Coordinate of a system, built from the `(x, y, z)` columns
(`(f64, f64, f64).into()` in the loader). -/
structure Coordinate where
  x : Rat
  y : Rat
  z : Rat
deriving DecidableEq, Repr

/-- `types::System` as constructed by the loader.  The struct literal in
`DatabaseBuilder::from_connection` supplies exactly these five fields
(`id`, `name`, `coordinate`, `security`, `region_name`), which fixes the
stored field list of the struct.  `security` is the `Security` newtype over
`f32`, modelled by its numeric value. -/
structure System where
  id : SystemId
  name : String
  coordinate : Coordinate
  security : Rat
  region_name : String
deriving DecidableEq, Repr

/-- `types::StargateType`: the three stargate sub-kinds the loader derives. -/
inductive StargateType where
  | Regional
  | Constellation
  | Local
deriving DecidableEq, Repr

/-- `types::ConnectionType`.  The spec's edge kinds are
`Stargate(Local | Constellation | Regional)` and `Wormhole`; the loader only
ever constructs the `Stargate` variant. -/
inductive ConnectionType where
  | Stargate (s : StargateType)
  | Wormhole
deriving DecidableEq, Repr

/-- `types::Connection` as constructed by the loader: the struct literal
supplies `from`, `to` and `r#type`.  `from`/`to` are renamed `fromId`/`toId`
because `from` is a reserved word in Lean. -/
structure Connection where
  fromId : SystemId
  toId : SystemId
  type : ConnectionType
deriving DecidableEq, Repr

/-- Whether a connection kind is a stargate kind. -/
def ConnectionType.isStargate : ConnectionType → Bool
  | .Stargate _ => true
  | .Wormhole => false

/-- The connection with the endpoints swapped (same kind). -/
def Connection.reverse (c : Connection) : Connection :=
  { fromId := c.toId, toId := c.fromId, type := c.type }

/-- One row of the systems query
(`SELECT solarSystemID, solarSystemName, s.x, s.y, s.z, security, regionName
FROM mapSolarSystems s JOIN mapRegions r USING (regionID)`).
`solarSystemID` is fetched as `u32`, hence a natural number. -/
structure SystemRow where
  solarSystemID : Nat
  solarSystemName : String
  x : Rat
  y : Rat
  z : Rat
  security : Rat
  regionName : String
deriving DecidableEq, Repr

/-- One row of the connections query
(`SELECT fromRegionID, fromConstellationID, fromSolarSystemID, toRegionID,
toConstellationID, toSolarSystemID FROM mapSolarSystemJumps`).
All six columns are fetched as `i32`. -/
structure JumpRow where
  fromRegionID : Int
  fromConstellationID : Int
  fromSolarSystemID : Int
  toRegionID : Int
  toConstellationID : Int
  toSolarSystemID : Int
deriving DecidableEq, Repr

/-- The per-row conversion of the systems query: the closure passed to
`.mapped` in `from_connection`, building a `types::System`. -/
def systemOfRow (row : SystemRow) : System :=
  { id := ⟨(row.solarSystemID : Int)⟩
    name := row.solarSystemName
    coordinate := ⟨row.x, row.y, row.z⟩
    security := row.security
    region_name := row.regionName }

/-- The stargate sub-kind derivation inside the jumps-row closure of
`from_connection`: regional if the region ids differ, else constellation if
the constellation ids differ, else local. -/
def stargateTypeOfRow (row : JumpRow) : StargateType :=
  if row.fromRegionID ≠ row.toRegionID then StargateType.Regional
  else if row.fromConstellationID ≠ row.toConstellationID then StargateType.Constellation
  else StargateType.Local

/-- The per-row conversion of the jumps query: the closure passed to
`.mapped` in `from_connection`, building a `types::Connection`. -/
def connectionOfRow (row : JumpRow) : Connection :=
  { fromId := ⟨row.fromSolarSystemID⟩
    toId := ⟨row.toSolarSystemID⟩
    type := ConnectionType.Stargate (stargateTypeOfRow row) }

/-- Decidable equality of `Except` values (component-wise). -/
instance {ε α : Type} [DecidableEq ε] [DecidableEq α] : DecidableEq (Except ε α) :=
  fun a b =>
    match a, b with
    | Except.error e, Except.error e' =>
      if h : e = e' then isTrue (by rw [h])
      else isFalse (by intro hh; cases hh; exact h rfl)
    | Except.error _, Except.ok _ => isFalse (fun hh => Except.noConfusion hh)
    | Except.ok _, Except.error _ => isFalse (fun hh => Except.noConfusion hh)
    | Except.ok v, Except.ok v' =>
      if h : v = v' then isTrue (by rw [h])
      else isFalse (by intro hh; cases hh; exact h rfl)

/-- Rust's `.collect::<Result<Vec<_>, _>>()`: succeed with the list of values
if every element succeeded, otherwise fail with the first error. -/
def collectResults {ε α : Type} : List (Except ε α) → Except ε (List α)
  | [] => Except.ok []
  | r :: rs =>
    match r with
    | Except.error e => Except.error e
    | Except.ok a =>
      match collectResults rs with
      | Except.error e => Except.error e
      | Except.ok as => Except.ok (a :: as)

/-- The systems collection the loader derives from the fetched rows:
convert each successfully fetched row and collect the results. -/
def loadSystems (rows : List (Except String SystemRow)) : Except String (List System) :=
  collectResults (rows.map (fun res => res.map systemOfRow))

/-- The connections collection the loader derives from the fetched rows. -/
def loadConnections (rows : List (Except String JumpRow)) : Except String (List Connection) :=
  collectResults (rows.map (fun res => res.map connectionOfRow))

/-- Spec §7 construction errors: dangling edge reference or duplicate id. -/
inductive ConstructionError where
  | DanglingEdge
  | DuplicateId
deriving DecidableEq, Repr

/-- Errors of the loader: a database fetch/conversion error (anyhow-wrapped
rusqlite error, modelled by its message) or a construction error. -/
inductive LoadError where
  | Db (msg : String)
  | Construction (e : ConstructionError)
deriving DecidableEq, Repr

/-- The universe: the systems collection and the (canonicalized) connections
collection handed over by the loader. -/
structure Universe where
  systems : List System
  connections : List Connection
deriving DecidableEq, Repr

/-- The reverse stargate edges that canonicalization must add: for each
connection of `l` that is a stargate and whose reverse is absent from `all`,
its reverse. -/
def addReverses (all : List Connection) : List Connection → List Connection
  | [] => []
  | c :: rest =>
    if c.type.isStargate = true ∧ c.reverse ∉ all then
      c.reverse :: addReverses all rest
    else
      addReverses all rest

/-- Canonicalize stargate reciprocity: keep all supplied connections and
append the missing reverse stargate edges. -/
def canonicalize (cs : List Connection) : List Connection :=
  cs ++ addReverses cs cs

/-- Modelled from the spec: `types::Universe::new` (the crate's `types` module
is not among the available sources; only its call site
`Ok(types::Universe::new(systems.into(), connections.into()))` is).
Spec §4.1: "Construction takes a collection of Nodes and a collection of raw
directed Edges; fails (construction error) if an edge references an unknown
NodeId, or if duplicate NodeIds are supplied.  Must canonicalize stargate
reciprocity as described in §3" — §3: "the SpaceGraph construction step
canonicalizes this by inserting the reverse edge automatically". -/
def Universe.new (systems : List System) (connections : List Connection) :
    Except ConstructionError Universe :=
  let ids := systems.map System.id
  if ¬ ids.Nodup then
    Except.error ConstructionError.DuplicateId
  else if ∃ c ∈ connections, ¬ (c.fromId ∈ ids ∧ c.toId ∈ ids) then
    Except.error ConstructionError.DanglingEdge
  else
    Except.ok { systems := systems, connections := canonicalize connections }

/-- `DatabaseBuilder::from_connection`: fetch and convert the systems rows,
fetch and convert the jumps rows (each row's fetch/conversion is an `Except`,
collected as in the Rust `collect::<Result<Vec<_>, _>>()`), then build the
universe from the two collections with `Universe::new`. -/
def from_connection (sysRows : List (Except String SystemRow))
    (jumpRows : List (Except String JumpRow)) : Except LoadError Universe := do
  let systems ← (collectResults (sysRows.map (fun res => res.map (fun row =>
    ({ id := ⟨(row.solarSystemID : Int)⟩
       name := row.solarSystemName
       coordinate := ⟨row.x, row.y, row.z⟩
       security := row.security
       region_name := row.regionName } : System))))).mapError LoadError.Db
  let connections ← (collectResults (jumpRows.map (fun res => res.map (fun row =>
    ({ fromId := ⟨row.fromSolarSystemID⟩
       toId := ⟨row.toSolarSystemID⟩
       type := ConnectionType.Stargate
         (if row.fromRegionID ≠ row.toRegionID then StargateType.Regional
          else if row.fromConstellationID ≠ row.toConstellationID then
            StargateType.Constellation
          else StargateType.Local) } : Connection))))).mapError LoadError.Db
  (Universe.new systems connections).mapError LoadError.Construction

/-- SQLite open flag `SQLITE_OPEN_READ_ONLY` (bit 0x1). -/
def SQLITE_OPEN_READ_ONLY : Nat := 0x00000001

/-- SQLite open flag `SQLITE_OPEN_READ_WRITE` (bit 0x2). -/
def SQLITE_OPEN_READ_WRITE : Nat := 0x00000002

/-- SQLite open flag `SQLITE_OPEN_CREATE` (bit 0x4). -/
def SQLITE_OPEN_CREATE : Nat := 0x00000004

/-- SQLite open flag `SQLITE_OPEN_URI` (bit 0x40). -/
def SQLITE_OPEN_URI : Nat := 0x00000040

/-- The flag word `DatabaseBuilder::build` passes to
`rusqlite::Connection::open_with_flags`:
`SQLITE_OPEN_READ_ONLY | SQLITE_OPEN_URI`. -/
def buildOpenFlags : Nat := SQLITE_OPEN_READ_ONLY ||| SQLITE_OPEN_URI

/-!
### Search index (`src/search.rs`)

`SearchIndex::search` delegates matching to the tantivy library: the parsed
query is executed with the `TopDocs::with_limit(10)` collector, which returns
the highest-scoring matches, at most the limit many.  The tantivy side is
modelled by the list of scored matching documents and a document store mapping
a doc address to its stored fields; scores (`f32`) are modelled as rationals.
-/

/-- A scored hit as returned by the tantivy searcher: `(score, DocAddress)`. -/
structure ScoredDoc where
  score : Rat
  address : Nat
deriving DecidableEq, Repr

/-- A stored tantivy field value; `as_i64` succeeds only on the `i64` variant. -/
inductive FieldValue where
  | i64 (v : Int)
  | text (s : String)
deriving DecidableEq, Repr

/-- `tantivy::schema::Value::as_i64`. -/
def FieldValue.as_i64 : FieldValue → Option Int
  | .i64 v => some v
  | .text _ => none

/-- A retrieved `TantivyDocument`, reduced to its `id` field:
`get_first(fields.id)` yields `none` when the field is absent. -/
structure TantivyDoc where
  idField : Option FieldValue
deriving DecidableEq, Repr

/-- `SearchResult` as in `src/search.rs`: the stored id and the score. -/
structure SearchResult where
  id : Int
  score : Rat
deriving DecidableEq, Repr

/-- Insert a scored doc into a list that is sorted by descending score,
keeping it sorted. -/
def insertByScore (d : ScoredDoc) : List ScoredDoc → List ScoredDoc
  | [] => [d]
  | e :: es => if e.score ≤ d.score then d :: e :: es else e :: insertByScore d es

/-- Sort scored docs by descending score (insertion sort). -/
def sortByScoreDesc : List ScoredDoc → List ScoredDoc
  | [] => []
  | d :: ds => insertByScore d (sortByScoreDesc ds)

/-- `tantivy::collector::TopDocs::with_limit(limit)` applied to the matching
documents: the `limit` highest-scoring hits. -/
def topDocsWithLimit (limit : Nat) (docs : List ScoredDoc) : List ScoredDoc :=
  (sortByScoreDesc docs).take limit

/-- `SearchIndex::search` after query parsing: run the searcher with
`TopDocs::with_limit(10)`, then for each hit retrieve the document
(`searcher.doc`, fallible), read its first `id` field value (`missing id`
when absent), convert it to `i64` (`error converting to i64` when it is not
an `i64`), and collect the `SearchResult`s as a `Result<Vec<_>>`. -/
def SearchIndex.search (docStore : Nat → Except String TantivyDoc)
    (hits : List ScoredDoc) : Except String (List SearchResult) :=
  collectResults ((topDocsWithLimit 10 hits).map (fun sd =>
    match docStore sd.address with
    | Except.error e => Except.error e
    | Except.ok doc =>
      match doc.idField with
      | none => Except.error "missing id"
      | some fv =>
        match fv.as_i64 with
        | none => Except.error "error converting to i64"
        | some i => Except.ok { id := i, score := sd.score }))

/-! ### Helper lemmas -/

theorem from_connection_factors_aux (sysRows : List (Except String SystemRow))
    (jumpRows : List (Except String JumpRow)) :
    from_connection sysRows jumpRows =
      (do
        let systems ← (loadSystems sysRows).mapError LoadError.Db
        let connections ← (loadConnections jumpRows).mapError LoadError.Db
        (Universe.new systems connections).mapError LoadError.Construction) :=
  rfl

theorem collectResults_ok_length {ε α : Type} (l : List (Except ε α))
    (res : List α) (h : collectResults l = Except.ok res) :
    res.length = l.length := by
  induction l generalizing res with
  | nil =>
    unfold collectResults at h
    cases h
    rfl
  | cons r rs ih =>
    unfold collectResults at h
    cases r with
    | error e => cases h
    | ok a =>
      cases hrs : collectResults rs with
      | error e => rw [hrs] at h; cases h
      | ok as =>
        rw [hrs] at h
        cases h
        simp [ih as hrs]

theorem collectResults_error_of_mem {ε α : Type} (l : List (Except ε α))
    (e : ε) (h : Except.error e ∈ l) :
    ∃ e', collectResults l = Except.error e' := by
  induction l with
  | nil => cases h
  | cons r rs ih =>
    cases h with
    | head => exact ⟨e, rfl⟩
    | tail _ hmem =>
      obtain ⟨e', he'⟩ := ih hmem
      cases r with
      | error e0 => exact ⟨e0, rfl⟩
      | ok a =>
        refine ⟨e', ?_⟩
        unfold collectResults
        rw [he']

theorem mem_of_collectResults_ok {ε α : Type} (l : List (Except ε α))
    (res : List α) (h : collectResults l = Except.ok res) :
    ∀ a ∈ res, Except.ok a ∈ l := by
  induction l generalizing res with
  | nil =>
    unfold collectResults at h
    cases h
    intro a ha
    cases ha
  | cons r rs ih =>
    unfold collectResults at h
    cases r with
    | error e => cases h
    | ok a0 =>
      cases hrs : collectResults rs with
      | error e => rw [hrs] at h; cases h
      | ok as =>
        rw [hrs] at h
        cases h
        intro a ha
        cases ha with
        | head => exact List.mem_cons_self _ _
        | tail _ hmem => exact List.mem_cons_of_mem _ (ih as hrs a hmem)

theorem Connection.reverse_reverse (c : Connection) : c.reverse.reverse = c := rfl

theorem Connection.reverse_type (c : Connection) : c.reverse.type = c.type := rfl

theorem mem_addReverses (all l : List Connection) (x : Connection) :
    x ∈ addReverses all l ↔
      ∃ c ∈ l, (c.type.isStargate = true ∧ c.reverse ∉ all) ∧ x = c.reverse := by
  induction l with
  | nil => simp [addReverses]
  | cons c rest ih =>
    unfold addReverses
    by_cases hc : c.type.isStargate = true ∧ c.reverse ∉ all
    · simp only [if_pos hc, List.mem_cons, ih]
      constructor
      · intro h
        cases h with
        | inl h => exact ⟨c, Or.inl rfl, hc, h⟩
        | inr h =>
          obtain ⟨c0, hc0, hcond, hx⟩ := h
          exact ⟨c0, Or.inr hc0, hcond, hx⟩
      · intro h
        obtain ⟨c0, hc0, hcond, hx⟩ := h
        cases hc0 with
        | inl h0 => subst h0; exact Or.inl hx
        | inr h0 => exact Or.inr ⟨c0, h0, hcond, hx⟩
    · simp only [if_neg hc, ih, List.mem_cons]
      constructor
      · intro h
        obtain ⟨c0, hc0, hcond, hx⟩ := h
        exact ⟨c0, Or.inr hc0, hcond, hx⟩
      · intro h
        obtain ⟨c0, hc0, hcond, hx⟩ := h
        cases hc0 with
        | inl h0 => subst h0; exact absurd hcond hc
        | inr h0 => exact ⟨c0, h0, hcond, hx⟩

theorem mem_canonicalize (cs : List Connection) (c : Connection)
    (h : c ∈ canonicalize cs) : c ∈ cs ∨ ∃ c0 ∈ cs, c = c0.reverse := by
  unfold canonicalize at h
  rcases List.mem_append.mp h with h | h
  · exact Or.inl h
  · obtain ⟨c0, hc0, _, hx⟩ := (mem_addReverses cs cs c).mp h
    exact Or.inr ⟨c0, hc0, hx⟩

theorem canonicalize_closed (cs : List Connection) (c : Connection)
    (hmem : c ∈ canonicalize cs) (hsg : c.type.isStargate = true) :
    c.reverse ∈ canonicalize cs := by
  unfold canonicalize at hmem ⊢
  rcases List.mem_append.mp hmem with h | h
  · by_cases hrev : c.reverse ∈ cs
    · exact List.mem_append.mpr (Or.inl hrev)
    · refine List.mem_append.mpr (Or.inr ?_)
      exact (mem_addReverses cs cs c.reverse).mpr ⟨c, h, ⟨hsg, hrev⟩, rfl⟩
  · obtain ⟨c0, hc0, _, hx⟩ := (mem_addReverses cs cs c).mp h
    subst hx
    rw [Connection.reverse_reverse]
    exact List.mem_append.mpr (Or.inl hc0)

theorem mem_canonicalize_of_mem (cs : List Connection) (c : Connection)
    (h : c ∈ cs) : c ∈ canonicalize cs :=
  List.mem_append.mpr (Or.inl h)

theorem Universe.new_ok (systems : List System) (connections : List Connection)
    (u : Universe) (h : Universe.new systems connections = Except.ok u) :
    u.systems = systems ∧ u.connections = canonicalize connections := by
  simp only [Universe.new] at h
  split at h
  · cases h
  · split at h
    · cases h
    · cases h
      exact ⟨rfl, rfl⟩

theorem Universe.new_conditions (systems : List System)
    (connections : List Connection) (u : Universe)
    (h : Universe.new systems connections = Except.ok u) :
    (systems.map System.id).Nodup ∧
      ∀ c ∈ connections,
        c.fromId ∈ systems.map System.id ∧ c.toId ∈ systems.map System.id := by
  simp only [Universe.new] at h
  split at h
  next hdup => cases h
  next hdup =>
    split at h
    next hdang => cases h
    next hdang =>
      push_neg at hdup hdang
      exact ⟨hdup, fun c hc => hdang c hc⟩

theorem from_connection_ok_decomp (sysRows : List (Except String SystemRow))
    (jumpRows : List (Except String JumpRow)) (u : Universe)
    (h : from_connection sysRows jumpRows = Except.ok u) :
    ∃ systems connections,
      loadSystems sysRows = Except.ok systems ∧
      loadConnections jumpRows = Except.ok connections ∧
      Universe.new systems connections = Except.ok u := by
  rw [from_connection_factors_aux] at h
  cases hs : loadSystems sysRows with
  | error e =>
    rw [hs] at h
    have h2 : (Except.error (LoadError.Db e) : Except LoadError Universe) =
        Except.ok u := h
    exact Except.noConfusion h2
  | ok systems =>
    rw [hs] at h
    cases hc : loadConnections jumpRows with
    | error e =>
      rw [hc] at h
      have h2 : (Except.error (LoadError.Db e) : Except LoadError Universe) =
          Except.ok u := h
      exact Except.noConfusion h2
    | ok connections =>
      rw [hc] at h
      have h' : (Universe.new systems connections).mapError LoadError.Construction =
          Except.ok u := h
      cases hn : Universe.new systems connections with
      | error e =>
        rw [hn] at h'
        have h2 : (Except.error (LoadError.Construction e) : Except LoadError Universe) =
            Except.ok u := h'
        exact Except.noConfusion h2
      | ok u' =>
        rw [hn] at h'
        have hu : u' = u := by simpa [Except.mapError] using h'
        subst hu
        exact ⟨systems, connections, rfl, rfl, hn⟩

theorem exists_row_of_mem_loadSystems (rows : List (Except String SystemRow))
    (systems : List System) (h : loadSystems rows = Except.ok systems) :
    ∀ s ∈ systems, ∃ r, Except.ok r ∈ rows ∧ s = systemOfRow r := by
  intro s hs
  have hmem := mem_of_collectResults_ok _ _ h s hs
  obtain ⟨res, hres, heq⟩ := List.mem_map.mp hmem
  cases res with
  | error e =>
    have h2 : (Except.error e : Except String System) = Except.ok s := heq
    exact Except.noConfusion h2
  | ok r =>
    have h2 : systemOfRow r = s := Except.ok.inj heq
    exact ⟨r, hres, h2.symm⟩

theorem exists_row_of_mem_loadConnections (rows : List (Except String JumpRow))
    (connections : List Connection)
    (h : loadConnections rows = Except.ok connections) :
    ∀ c ∈ connections, ∃ r, Except.ok r ∈ rows ∧ c = connectionOfRow r := by
  intro c hc
  have hmem := mem_of_collectResults_ok _ _ h c hc
  obtain ⟨res, hres, heq⟩ := List.mem_map.mp hmem
  cases res with
  | error e =>
    have h2 : (Except.error e : Except String Connection) = Except.ok c := heq
    exact Except.noConfusion h2
  | ok r =>
    have h2 : connectionOfRow r = c := Except.ok.inj heq
    exact ⟨r, hres, h2.symm⟩

theorem Universe.new_error (systems : List System) (connections : List Connection)
    (hbad : (∃ c ∈ connections,
        ¬ (c.fromId ∈ systems.map System.id ∧ c.toId ∈ systems.map System.id)) ∨
      ¬ (systems.map System.id).Nodup) :
    ∃ e, Universe.new systems connections = Except.error e := by
  simp only [Universe.new]
  by_cases hdup : ¬ (systems.map System.id).Nodup
  · rw [if_pos hdup]
    exact ⟨ConstructionError.DuplicateId, rfl⟩
  · rw [if_neg hdup]
    have hdang : ∃ c ∈ connections,
        ¬ (c.fromId ∈ systems.map System.id ∧ c.toId ∈ systems.map System.id) := by
      rcases hbad with h | h
      · exact h
      · exact absurd h hdup
    rw [if_pos hdang]
    exact ⟨ConstructionError.DanglingEdge, rfl⟩

theorem from_connection_of_construction (sysRows : List (Except String SystemRow))
    (jumpRows : List (Except String JumpRow)) (systems : List System)
    (connections : List Connection)
    (hs : loadSystems sysRows = Except.ok systems)
    (hc : loadConnections jumpRows = Except.ok connections) :
    from_connection sysRows jumpRows =
      (Universe.new systems connections).mapError LoadError.Construction := by
  rw [from_connection_factors_aux, hs, hc]
  rfl

/-! ### Claims -/

/-- C1: for every stargate connection `a→b` present in a universe produced by
the SQLite loader, the reverse connection `b→a` is present as well:
`Universe::new` canonicalizes stargate reciprocity by inserting the missing
reverse edges. -/
theorem loader_stargate_reciprocity (sysRows : List (Except String SystemRow))
    (jumpRows : List (Except String JumpRow)) (u : Universe)
    (h : from_connection sysRows jumpRows = Except.ok u) :
    ∀ c ∈ u.connections, c.type.isStargate = true → c.reverse ∈ u.connections := by
  obtain ⟨systems, connections, hs, hc, hn⟩ := from_connection_ok_decomp _ _ _ h
  obtain ⟨-, hconn⟩ := Universe.new_ok _ _ _ hn
  rw [hconn]
  intro c hmem hsg
  exact canonicalize_closed _ _ hmem hsg

/-- Witness for C1: loading systems 1 and 2 with the single jump `1→2`
yields a universe that also contains the reverse connection `2→1`. -/
theorem loader_stargate_reciprocity_witness :
    (Connection.mk ⟨1⟩ ⟨2⟩
        (ConnectionType.Stargate StargateType.Local)).reverse ∈
      (Universe.mk
        [⟨⟨1⟩, "A", ⟨0, 0, 0⟩, 1, "R"⟩, ⟨⟨2⟩, "B", ⟨0, 0, 0⟩, 1, "R"⟩]
        [⟨⟨1⟩, ⟨2⟩, ConnectionType.Stargate StargateType.Local⟩,
         ⟨⟨2⟩, ⟨1⟩, ConnectionType.Stargate StargateType.Local⟩]).connections :=
  loader_stargate_reciprocity
    [Except.ok ⟨1, "A", 0, 0, 0, 1, "R"⟩, Except.ok ⟨2, "B", 0, 0, 0, 1, "R"⟩]
    [Except.ok ⟨10, 20, 1, 10, 20, 2⟩]
    (Universe.mk
      [⟨⟨1⟩, "A", ⟨0, 0, 0⟩, 1, "R"⟩, ⟨⟨2⟩, "B", ⟨0, 0, 0⟩, 1, "R"⟩]
      [⟨⟨1⟩, ⟨2⟩, ConnectionType.Stargate StargateType.Local⟩,
       ⟨⟨2⟩, ⟨1⟩, ConnectionType.Stargate StargateType.Local⟩])
    (by decide)
    ⟨⟨1⟩, ⟨2⟩, ConnectionType.Stargate StargateType.Local⟩
    (by decide) (by decide)

/-- C2: building a universe fails with a construction error whenever a
supplied connection references a system id for which no system record was
supplied, or when two supplied system records carry the same id; the loader
returns the error, never a universe containing the dangling edge. -/
theorem loader_construction_error (sysRows : List (Except String SystemRow))
    (jumpRows : List (Except String JumpRow)) (systems : List System)
    (connections : List Connection)
    (hs : loadSystems sysRows = Except.ok systems)
    (hc : loadConnections jumpRows = Except.ok connections)
    (hbad : (∃ c ∈ connections,
        ¬ (c.fromId ∈ systems.map System.id ∧ c.toId ∈ systems.map System.id)) ∨
      ¬ (systems.map System.id).Nodup) :
    ∃ e, from_connection sysRows jumpRows =
      Except.error (LoadError.Construction e) := by
  obtain ⟨e, he⟩ := Universe.new_error systems connections hbad
  refine ⟨e, ?_⟩
  rw [from_connection_of_construction sysRows jumpRows systems connections hs hc, he]
  rfl

/-- Witness for C2: a jumps row referencing system 99, which is absent from
the systems rows, makes the loader fail with a construction error. -/
theorem loader_construction_error_witness :
    ∃ e, from_connection [Except.ok ⟨1, "A", 0, 0, 0, 1, "R"⟩]
        [Except.ok ⟨10, 20, 1, 10, 20, 99⟩] =
      Except.error (LoadError.Construction e) :=
  loader_construction_error
    [Except.ok ⟨1, "A", 0, 0, 0, 1, "R"⟩]
    [Except.ok ⟨10, 20, 1, 10, 20, 99⟩]
    [⟨⟨1⟩, "A", ⟨0, 0, 0⟩, 1, "R"⟩]
    [⟨⟨1⟩, ⟨99⟩, ConnectionType.Stargate StargateType.Local⟩]
    (by decide) (by decide) (by decide)

/-- C3: for every row of the `mapSolarSystemJumps` input the loader derives
the stargate sub-kind as: `Regional` when the region ids differ, otherwise
`Constellation` when the constellation ids differ, otherwise `Local`. -/
theorem loader_stargate_kind_derivation (r : JumpRow) :
    (r.fromRegionID ≠ r.toRegionID →
      (connectionOfRow r).type = ConnectionType.Stargate StargateType.Regional) ∧
    (r.fromRegionID = r.toRegionID → r.fromConstellationID ≠ r.toConstellationID →
      (connectionOfRow r).type = ConnectionType.Stargate StargateType.Constellation) ∧
    (r.fromRegionID = r.toRegionID → r.fromConstellationID = r.toConstellationID →
      (connectionOfRow r).type = ConnectionType.Stargate StargateType.Local) := by
  refine ⟨fun h1 => ?_, fun h1 h2 => ?_, fun h1 h2 => ?_⟩
  · simp [connectionOfRow, stargateTypeOfRow, h1]
  · simp [connectionOfRow, stargateTypeOfRow, h1, h2]
  · simp [connectionOfRow, stargateTypeOfRow, h1, h2]

/-- Witness for C3: the three derivations at concrete rows — differing
regions give `Regional`, equal regions with differing constellations give
`Constellation`, equal regions and constellations give `Local`. -/
theorem loader_stargate_kind_derivation_witness :
    (connectionOfRow ⟨10, 20, 1, 11, 21, 2⟩).type =
        ConnectionType.Stargate StargateType.Regional ∧
    (connectionOfRow ⟨10, 20, 1, 10, 21, 2⟩).type =
        ConnectionType.Stargate StargateType.Constellation ∧
    (connectionOfRow ⟨10, 20, 1, 10, 20, 2⟩).type =
        ConnectionType.Stargate StargateType.Local :=
  ⟨(loader_stargate_kind_derivation ⟨10, 20, 1, 11, 21, 2⟩).1 (by decide),
   (loader_stargate_kind_derivation ⟨10, 20, 1, 10, 21, 2⟩).2.1 rfl (by decide),
   (loader_stargate_kind_derivation ⟨10, 20, 1, 10, 20, 2⟩).2.2 rfl rfl⟩

/-- C4: if fetching or converting any systems row or any jumps row fails,
`from_connection` returns an error result: the caller never receives a
partially built universe. -/
theorem loader_row_error_propagation (sysRows : List (Except String SystemRow))
    (jumpRows : List (Except String JumpRow))
    (h : (∃ e, Except.error e ∈ sysRows) ∨ ∃ e, Except.error e ∈ jumpRows) :
    ∃ err, from_connection sysRows jumpRows = Except.error err := by
  rcases h with ⟨e, he⟩ | ⟨e, he⟩
  · have hmem : (Except.error e : Except String System) ∈
        sysRows.map (fun res => res.map systemOfRow) :=
      List.mem_map.mpr ⟨Except.error e, he, rfl⟩
    obtain ⟨e', he'⟩ := collectResults_error_of_mem _ e hmem
    refine ⟨LoadError.Db e', ?_⟩
    rw [from_connection_factors_aux]
    have hs : loadSystems sysRows = Except.error e' := he'
    rw [hs]
    rfl
  · cases hs : loadSystems sysRows with
    | error e0 =>
      refine ⟨LoadError.Db e0, ?_⟩
      rw [from_connection_factors_aux, hs]
      rfl
    | ok systems =>
      have hmem : (Except.error e : Except String Connection) ∈
          jumpRows.map (fun res => res.map connectionOfRow) :=
        List.mem_map.mpr ⟨Except.error e, he, rfl⟩
      obtain ⟨e', he'⟩ := collectResults_error_of_mem _ e hmem
      refine ⟨LoadError.Db e', ?_⟩
      rw [from_connection_factors_aux, hs]
      have hc : loadConnections jumpRows = Except.error e' := he'
      rw [hc]
      rfl

/-- Witness for C4: a failing systems row makes the whole load fail. -/
theorem loader_row_error_propagation_witness :
    ∃ err, from_connection
        [Except.ok ⟨1, "A", 0, 0, 0, 1, "R"⟩, Except.error "row decode failed"]
        [] = Except.error err :=
  loader_row_error_propagation
    [Except.ok ⟨1, "A", 0, 0, 0, 1, "R"⟩, Except.error "row decode failed"] []
    (Or.inl ⟨"row decode failed", by decide⟩)

/-- Counterexample to C5: the loader stores the `security` column unmodified,
so a systems row whose security is 2 yields a universe containing a system
with security 2, outside `[-1, 1]`. -/
theorem loader_security_range_counterexample :
    from_connection [Except.ok ⟨1, "X", 0, 0, 0, 2, "R"⟩] [] =
      Except.ok ⟨[⟨⟨1⟩, "X", ⟨0, 0, 0⟩, 2, "R"⟩], []⟩ ∧
    ∃ s ∈ (Universe.mk [⟨⟨1⟩, "X", ⟨0, 0, 0⟩, 2, "R"⟩] []).systems,
      ¬ (-1 ≤ s.security ∧ s.security ≤ 1) := by
  refine ⟨by decide, ⟨⟨⟨1⟩, "X", ⟨0, 0, 0⟩, 2, "R"⟩, by decide, by decide⟩⟩

/-- C5 as amended: the loader passes each row's security value through
unmodified, so every system of a loaded universe has security in `[-1, 1]`
provided every successfully fetched systems row does (as the game's data
dump does). -/
theorem loader_security_passthrough_range (sysRows : List (Except String SystemRow))
    (jumpRows : List (Except String JumpRow)) (u : Universe)
    (hrows : ∀ r : SystemRow, Except.ok r ∈ sysRows →
      -1 ≤ r.security ∧ r.security ≤ 1)
    (h : from_connection sysRows jumpRows = Except.ok u) :
    ∀ s ∈ u.systems, -1 ≤ s.security ∧ s.security ≤ 1 := by
  obtain ⟨systems, connections, hs, hc, hn⟩ := from_connection_ok_decomp _ _ _ h
  obtain ⟨hsys, -⟩ := Universe.new_ok _ _ _ hn
  rw [hsys]
  intro s hsmem
  obtain ⟨r, hr, hseq⟩ := exists_row_of_mem_loadSystems _ _ hs s hsmem
  rw [hseq]
  exact hrows r hr

/-- Witness for the amended C5: a row with security 0 loads into a universe
whose every system has security within `[-1, 1]`. -/
theorem loader_security_passthrough_range_witness :
    -1 ≤ (System.mk ⟨1⟩ "X" ⟨0, 0, 0⟩ 0 "R").security ∧
      (System.mk ⟨1⟩ "X" ⟨0, 0, 0⟩ 0 "R").security ≤ 1 :=
  loader_security_passthrough_range [Except.ok ⟨1, "X", 0, 0, 0, 0, "R"⟩] []
    (Universe.mk [⟨⟨1⟩, "X", ⟨0, 0, 0⟩, 0, "R"⟩] [])
    (by
      intro r hr
      rw [List.mem_singleton] at hr
      cases Except.ok.inj hr
      decide)
    (by decide)
    (System.mk ⟨1⟩ "X" ⟨0, 0, 0⟩ 0 "R")
    (by decide)

/-- C6: `from_connection` obtains the universe by converting the fetched rows
into exactly two collections — the systems and the connections — and handing
them to the single `Universe::new` call; the construction step receives only
those two collections and performs no fetching or parsing. -/
theorem from_connection_factors (sysRows : List (Except String SystemRow))
    (jumpRows : List (Except String JumpRow)) :
    from_connection sysRows jumpRows =
      (do
        let systems ← (loadSystems sysRows).mapError LoadError.Db
        let connections ← (loadConnections jumpRows).mapError LoadError.Db
        (Universe.new systems connections).mapError LoadError.Construction) :=
  rfl

/-- Counterexample to C7: a `System` record is not determined by the four
fields `id`, `name`, `coordinate`, `security` of §3 — two system records
agreeing on all four still differ, because the struct stores a fifth field
`region_name` (populated from the joined `mapRegions.regionName` column). -/
theorem system_fields_counterexample :
    ∃ s t : System, s.id = t.id ∧ s.name = t.name ∧ s.coordinate = t.coordinate ∧
      s.security = t.security ∧ s ≠ t :=
  ⟨⟨⟨1⟩, "A", ⟨0, 0, 0⟩, 0, "RegionA"⟩, ⟨⟨1⟩, "A", ⟨0, 0, 0⟩, 0, "RegionB"⟩,
    rfl, rfl, rfl, rfl, by decide⟩

/-- C7 as amended: a `System` record produced by the loader has exactly the
stored fields `id`, `name`, `coordinate`, `security` and `region_name`:
two records agreeing on these five fields are equal. -/
theorem system_fields_ext (s t : System) (h1 : s.id = t.id) (h2 : s.name = t.name)
    (h3 : s.coordinate = t.coordinate) (h4 : s.security = t.security)
    (h5 : s.region_name = t.region_name) : s = t := by
  cases s
  cases t
  simp_all

/-- Witness for the amended C7 at a concrete pair of records. -/
theorem system_fields_ext_witness :
    (⟨⟨1⟩, "A", ⟨0, 0, 0⟩, 0, "R"⟩ : System) = ⟨⟨1⟩, "A", ⟨0, 0, 0⟩, 0, "R"⟩ :=
  system_fields_ext ⟨⟨1⟩, "A", ⟨0, 0, 0⟩, 0, "R"⟩ ⟨⟨1⟩, "A", ⟨0, 0, 0⟩, 0, "R"⟩
    rfl rfl rfl rfl rfl

/-- C8: for any query, `SearchIndex::search` returns at most 10 results —
the searcher is run with the `TopDocs::with_limit(10)` collector, however
many documents match. -/
theorem search_at_most_ten (docStore : Nat → Except String TantivyDoc)
    (hits : List ScoredDoc) (results : List SearchResult)
    (h : SearchIndex.search docStore hits = Except.ok results) :
    results.length ≤ 10 := by
  unfold SearchIndex.search at h
  have hlen := collectResults_ok_length _ _ h
  rw [List.length_map] at hlen
  rw [hlen]
  simp only [topDocsWithLimit, List.length_take]
  omega

/-- Witness for C8: a search over a single matching document returns one
result, which is within the limit of 10. -/
theorem search_at_most_ten_witness :
    ([⟨42, 1⟩] : List SearchResult).length ≤ 10 :=
  search_at_most_ten (fun _ => Except.ok ⟨some (FieldValue.i64 42)⟩)
    [⟨1, 7⟩] [⟨42, 1⟩] (by decide)

/-- C9: every connection in a universe produced by the SQLite loader has a
`Stargate` kind; the loader never emits a wormhole connection. -/
theorem loader_connections_are_stargates (sysRows : List (Except String SystemRow))
    (jumpRows : List (Except String JumpRow)) (u : Universe)
    (h : from_connection sysRows jumpRows = Except.ok u) :
    ∀ c ∈ u.connections, ∃ st, c.type = ConnectionType.Stargate st := by
  obtain ⟨systems, connections, hs, hc, hn⟩ := from_connection_ok_decomp _ _ _ h
  obtain ⟨-, hconn⟩ := Universe.new_ok _ _ _ hn
  rw [hconn]
  have hbase : ∀ c0 ∈ connections, ∃ st, c0.type = ConnectionType.Stargate st := by
    intro c0 hc0
    obtain ⟨r, _, heq⟩ := exists_row_of_mem_loadConnections _ _ hc c0 hc0
    rw [heq]
    exact ⟨stargateTypeOfRow r, rfl⟩
  intro c hmem
  rcases mem_canonicalize _ _ hmem with h0 | ⟨c0, hc0, rfl⟩
  · exact hbase c h0
  · obtain ⟨st, hst⟩ := hbase c0 hc0
    exact ⟨st, by rw [Connection.reverse_type, hst]⟩

/-- Witness for C9: the connections of the universe loaded from one jump row
are all stargates. -/
theorem loader_connections_are_stargates_witness :
    ∃ st, (Connection.mk ⟨1⟩ ⟨2⟩ (ConnectionType.Stargate StargateType.Local)).type =
      ConnectionType.Stargate st :=
  loader_connections_are_stargates
    [Except.ok ⟨1, "A", 0, 0, 0, 1, "R"⟩, Except.ok ⟨2, "B", 0, 0, 0, 1, "R"⟩]
    [Except.ok ⟨10, 20, 1, 10, 20, 2⟩]
    (Universe.mk
      [⟨⟨1⟩, "A", ⟨0, 0, 0⟩, 1, "R"⟩, ⟨⟨2⟩, "B", ⟨0, 0, 0⟩, 1, "R"⟩]
      [⟨⟨1⟩, ⟨2⟩, ConnectionType.Stargate StargateType.Local⟩,
       ⟨⟨2⟩, ⟨1⟩, ConnectionType.Stargate StargateType.Local⟩])
    (by decide)
    ⟨⟨1⟩, ⟨2⟩, ConnectionType.Stargate StargateType.Local⟩
    (by decide)

/-- C10: `DatabaseBuilder::build` opens the SQLite database with
`SQLITE_OPEN_READ_ONLY | SQLITE_OPEN_URI`: the read-only bit is set and
neither the read-write nor the create bit is, so loading never opens the
data source for modification. -/
theorem build_open_flags_readonly :
    buildOpenFlags &&& SQLITE_OPEN_READ_ONLY = SQLITE_OPEN_READ_ONLY ∧
    buildOpenFlags &&& SQLITE_OPEN_READ_WRITE = 0 ∧
    buildOpenFlags &&& SQLITE_OPEN_CREATE = 0 := by
  decide
